import Mathlib

/-!
Verification of the WebFrame HTTP/1.x server stack.

The repository is embedded shallowly: bytes are modelled one `Char` per
byte (the code decodes all wire bytes as latin-1, so characters 0–255 are
in bijection with bytes), byte strings are `List Char`, and the socket
streams are lists of lines.  Each definition is translated from the
Python source file and line range named in its doc comment.
-/

namespace WebFrame

/-! ## Python text primitives

These model the Python `str` operations used by the sources, restricted
to latin-1 text (every `Char` below 256), which is the only text the
parsers ever handle (`str(raw, 'iso-8859-1')`, `encode('latin-1')`). -/

/-- The latin-1 characters Python's `str.split()` / `str.strip()` /
`int()` treat as whitespace (`Py_UNICODE_ISSPACE` restricted to code
points below 256). -/
def isPyWs (c : Char) : Bool :=
  c == '\t' || c == '\n' || c == '\x0b' || c == '\x0c' || c == '\r'
    || c == '\x1c' || c == '\x1d' || c == '\x1e' || c == '\x1f'
    || c == ' ' || c == '\x85' || c == '\xa0'

/-- Python `str.lower()` on latin-1 text: ASCII `A`–`Z` and the latin-1
uppercase letters `À`–`Þ` (except `×`) map down by 32; everything else is
fixed. -/
def lowerChar (c : Char) : Char :=
  if ('A' ≤ c && c ≤ 'Z') || (('\xc0' ≤ c && c ≤ '\xde') && !(c = '\xd7')) then
    Char.ofNat (c.toNat + 32)
  else c

def lowerS (s : List Char) : List Char := s.map lowerChar

/-- Python string `<` : lexicographic comparison by code point. -/
def strLt : List Char → List Char → Bool
  | [], [] => false
  | [], _ :: _ => true
  | _ :: _, [] => false
  | a :: as, b :: bs =>
    if a.toNat < b.toNat then true
    else if b.toNat < a.toNat then false
    else strLt as bs

/-- Python string `>=` (total order, so `a >= b ↔ ¬ a < b`). -/
def strGe (a b : List Char) : Bool := !(strLt a b)

def dropTrailWhile (p : Char → Bool) (s : List Char) : List Char :=
  (s.reverse.dropWhile p).reverse

/-- Python `str.strip()` (no argument): drop whitespace on both ends. -/
def pyStrip (s : List Char) : List Char :=
  dropTrailWhile isPyWs (s.dropWhile isPyWs)

/-- `requestline.rstrip('\r\n')` (http_server.py:99): drop any trailing
mix of CR and LF characters. -/
def rstripCrlf (s : List Char) : List Char :=
  dropTrailWhile (fun c => c == '\r' || c == '\n') s

/-- Helper for `splitWs`: accumulates the current token (reversed). -/
def splitWsGo : List Char → List Char → List (List Char)
  | acc, [] => if acc.isEmpty then [] else [acc.reverse]
  | acc, c :: cs =>
    if isPyWs c then
      if acc.isEmpty then splitWsGo [] cs else acc.reverse :: splitWsGo [] cs
    else splitWsGo (c :: acc) cs

/-- Python `str.split()` with no separator: split on whitespace runs,
never producing empty tokens. -/
def splitWs (s : List Char) : List (List Char) := splitWsGo [] s

/-- Python `str.split(sep)` for a single-character separator and no
maxsplit: every occurrence splits, empty pieces are kept
(`"".split('.') = [""]`). -/
def splitOnAll (sep : Char) : List Char → List (List Char)
  | [] => [[]]
  | c :: cs =>
    if c = sep then [] :: splitOnAll sep cs
    else
      match splitOnAll sep cs with
      | t :: ts => (c :: t) :: ts
      | [] => [[c]]

/-- Python `a.startswith(b)` ≡ `startsWithL b a`: the first argument is
a leading segment of the second. -/
def startsWithL : List Char → List Char → Bool
  | [], _ => true
  | _ :: _, [] => false
  | a :: as, b :: bs => a == b && startsWithL as bs

/-- Everything after the first occurrence of `sep`
(`s.split(sep, 1)[1]` for a string known to contain `sep`). -/
def afterFirst (sep : Char) : List Char → List Char
  | [] => []
  | c :: cs => if c = sep then cs else afterFirst sep cs

def isDigitC (c : Char) : Bool := '0' ≤ c && c ≤ '9'

def digitVal (c : Char) : Nat := c.toNat - '0'.toNat

def natOfDigits (s : List Char) : Nat :=
  s.foldl (fun a c => a * 10 + digitVal c) 0

/-- Tail of Python's integer-literal digit grammar: digits with single
underscores strictly between digits. -/
def digitsTail : List Char → Bool
  | [] => true
  | c :: rest =>
    if c = '_' then
      match rest with
      | [] => false
      | d :: rest2 => isDigitC d && digitsTail rest2
    else isDigitC c && digitsTail rest

/-- A nonempty digit string in Python `int()` grammar (no sign). -/
def digitsOk : List Char → Bool
  | [] => false
  | c :: cs => isDigitC c && digitsTail cs

def stripUnderscores (l : List Char) : List Char :=
  l.filter (fun c => !(c = '_'))

/-- Python `int(s)` for latin-1 `s`: strips whitespace, allows one
optional sign, then decimal digits with single underscores between
digits.  Returns `none` where `int()` raises `ValueError`. -/
def pyInt (s : List Char) : Option Int :=
  match pyStrip s with
  | [] => none
  | c :: rest =>
    if c = '+' then
      if digitsOk rest then some ((natOfDigits (stripUnderscores rest) : Int))
      else none
    else if c = '-' then
      if digitsOk rest then
        some (-(natOfDigits (stripUnderscores rest) : Int))
      else none
    else if digitsOk (c :: rest) then
      some ((natOfDigits (stripUnderscores (c :: rest)) : Int))
    else none

/-- Python tuple comparison `a >= b` on integer pairs (lexicographic). -/
def tupGe (a b : Int × Int) : Bool :=
  if b.1 < a.1 then true
  else if a.1 = b.1 then decide (b.2 ≤ a.2)
  else false

/-- Decimal rendering of a nonnegative integer (`"%d" % code` for the
status codes that occur). -/
def intToStr (n : Int) : List Char :=
  if n < 0 then '-' :: Nat.toDigits 10 n.natAbs else Nat.toDigits 10 n.natAbs

/-- Python `hex(n)[2:]` for `n ≥ 0`: lowercase hex digits, no prefix. -/
def hexDigit (n : Nat) : Char :=
  if n < 10 then Char.ofNat ('0'.toNat + n) else Char.ofNat ('a'.toNat + n - 10)

def hexStrAux : Nat → List Char → List Char
  | 0, acc => acc
  | n + 1, acc =>
    let m := n + 1
    hexStrAux (m / 16) (hexDigit (m % 16) :: acc)
decreasing_by exact Nat.div_lt_self (Nat.succ_pos n) (by norm_num)

def hexStr (n : Nat) : List Char :=
  if n = 0 then ['0'] else hexStrAux n []

/-! ## `mywsgiref/headers.py` — the response `Headers` collection -/

/-- `Headers.__delitem__` (headers.py:38-43): remove every pair whose
name matches case-insensitively. -/
def headersDel (name : List Char) (hs : List (List Char × List Char)) :
    List (List Char × List Char) :=
  hs.filter (fun kv => !(lowerS kv.1 == lowerS name))

/-- `Headers.__setitem__` (headers.py:34-36): delete all occurrences of
the name, then append the new pair. -/
def headersSet (hs : List (List Char × List Char)) (name val : List Char) :
    List (List Char × List Char) :=
  headersDel name hs ++ [(name, val)]

/-- `Headers.get_all` (headers.py:56-64): values of every
case-insensitive match, in stored order. -/
def headersGetAll (hs : List (List Char × List Char)) (name : List Char) :
    List (List Char) :=
  (hs.filter (fun kv => lowerS kv.1 == lowerS name)).map (fun kv => kv.2)

/-- `Headers.get` (headers.py:66-72): first case-insensitive match, or
the default. -/
def headersGet (hs : List (List Char × List Char)) (name dflt : List Char) :
    List Char :=
  match hs.find? (fun kv => lowerS kv.1 == lowerS name) with
  | some kv => kv.2
  | none => dflt

/-- `email.message.Message.get` behaves the same way on the parsed
request headers (first case-insensitive match). -/
def msgGet (hs : List (List Char × List Char)) (name dflt : List Char) :
    List Char :=
  headersGet hs name dflt

/-! ## `myhttp/http_client.py` — header-block reading -/

/-- `_MAXLINE` (http_client.py:4). -/
def maxLine : Nat := 65536

/-- `_MAXHEADERS` (http_client.py:5). -/
def maxHeaders : Nat := 100

/-- The two failures of `_read_headers`: `LineTooLong("header line")`
and `HTTPException("got more than 100 headers")`. -/
inductive HErr
  | lineTooLong
  | tooManyHeaders
deriving DecidableEq

/-- `line in (b'\r\n', b'\n', b'')` (http_client.py:39). -/
def isTerm (l : List Char) : Bool :=
  l == ['\r', '\n'] || l == ['\n'] || l == []

/-- `_read_headers` (http_client.py:25-40).  The input stream is the
remaining physical lines of the connection; `fp.readline(_MAXLINE + 1)`
returns at most `_MAXLINE + 1` bytes of the first line (the tail of an
over-long line stays in the stream).  Returns the accumulated raw lines
or the first error, together with the unread remainder of the stream. -/
def readHeadersGo (hdrs : List (List Char)) :
    List (List Char) → Except HErr (List (List Char)) × List (List Char)
  | [] =>
    -- exhausted stream: readline returns b'', which is appended and
    -- then terminates the loop (after the header-count check)
    if maxHeaders < hdrs.length + 1 then (.error .tooManyHeaders, [])
    else (.ok (hdrs ++ [[]]), [])
  | l :: rest =>
    let line := l.take (maxLine + 1)
    if maxLine < line.length then
      (.error .lineTooLong,
        if l.length ≤ maxLine + 1 then rest else l.drop (maxLine + 1) :: rest)
    else if maxHeaders < hdrs.length + 1 then (.error .tooManyHeaders, rest)
    else if isTerm line then (.ok (hdrs ++ [line]), rest)
    else readHeadersGo (hdrs ++ [line]) rest

/-- Modelled from the spec: the structural step of `parse_headers`
(http_client.py:42-53) hands the joined header bytes to the stdlib
`email.parser` (not part of this repository).  Per the spec, structural
parsing is colon-separated name/value with no special folding handling:
on a simple line `name ':' value CRLF` the parser records the name
(text before the first colon) and the value (text after it, leading
whitespace and the trailing line break stripped), keeping line order
and duplicates; the terminator and colon-free lines add no pair. -/
def parseHeaderLines : List (List Char) → List (List Char × List Char)
  | [] => []
  | l :: rest =>
    if l.any (fun c => c = ':') then
      (l.takeWhile (fun c => !(c = ':')),
        rstripCrlf ((afterFirst ':' l).dropWhile isPyWs)) :: parseHeaderLines rest
    else parseHeaderLines rest

/-- `parse_headers` (http_client.py:42-53): read the raw block, then
parse it into an ordered name/value sequence. -/
def parseHeaders (stream : List (List Char)) :
    Except HErr (List (List Char × List Char)) × List (List Char) :=
  match readHeadersGo [] stream with
  | (.ok lines, rest) => (.ok (parseHeaderLines lines), rest)
  | (.error e, rest) => (.error e, rest)

/-- The wire form of one header pair: `name ':' SP value CRLF`. -/
def lineOf (p : List Char × List Char) : List Char :=
  p.1 ++ (':' :: ' ' :: (p.2 ++ ['\r', '\n']))

/-- A header pair whose wire line is simple: nonempty colon-free name,
value free of CR/LF and not starting with whitespace, line within the
65536-byte limit. -/
def pairWf (p : List Char × List Char) : Prop :=
  p.1 ≠ [] ∧ ':' ∉ p.1 ∧ '\r' ∉ p.2 ∧ '\n' ∉ p.2
    ∧ p.2.dropWhile isPyWs = p.2 ∧ p.1.length + p.2.length + 4 ≤ maxLine

instance (p : List Char × List Char) : Decidable (pairWf p) := by
  unfold pairWf; infer_instance

/-! ## `myhttp/http_server.py` — `BaseHTTPRequestHandler` -/

/-- The Python exceptions that the embedded fragments can raise.
`appError` stands for an application exception object carried in
`exc_info`. -/
inductive PyExc
  | assertionError
  | valueError
  | attributeError
  | appError (tag : Nat)
deriving DecidableEq

/-- The `responses` table (http_server.py:30-34), built from the
`HTTPStatus` enum in `myhttp/__init__.py`: code ↦ short phrase.  Only
the five statuses defined there are present. -/
def responses (code : Int) : Option (List Char) :=
  if code = 100 then some "Continue".toList
  else if code = 400 then some "Bad Request".toList
  else if code = 414 then some "Request-URI Too Long".toList
  else if code = 431 then some "Request Header Fields Too Large".toList
  else if code = 505 then some "HTTP Version Not Supported".toList
  else none

/-- Per-connection handler state: the `close_connection` flag, the
bytes written to `self.wfile` (the client socket), the
`_headers_buffer` list, and the status codes logged to stderr by
`log_request` / `send_error`. -/
structure HState where
  close : Bool
  wire : List Char
  buffer : List (List Char)
  log : List Int
deriving DecidableEq

def initState : HState := { close := true, wire := [], buffer := [], log := [] }

/-- `send_error` (http_server.py:241-266).  The body resolves the
phrase/description pair from the `responses` table and calls
`log_error`; despite its own doc string (`"This sends an error
response ..."`) it never touches `self.wfile`, so no bytes reach the
client and `close_connection` is not modified. -/
def sendError (st : HState) (code : Int) : HState :=
  { st with log := st.log ++ [code] }

/-- `send_response_only` (http_server.py:200-212): for a non-0.9
request append `"<proto> <code> <message>\r\n"` to the header buffer,
defaulting the message from the `responses` table. -/
def sendResponseOnly (rv pv : List Char) (code : Int)
    (message : Option (List Char)) (st : HState) : HState :=
  if rv == "HTTP/0.9".toList then st
  else
    let msg := match message with
      | some m => m
      | none =>
        match responses code with
        | some phrase => phrase
        | none => []
    { st with
      buffer := st.buffer
        ++ [pv ++ (' ' :: (intToStr code ++ (' ' :: (msg ++ ['\r', '\n']))))] }

/-- `send_header` (http_server.py:214-226): for a non-0.9 request
append `"<keyword>: <value>\r\n"` to the header buffer; a `Connection`
keyword additionally updates `close_connection` (for every request
version). -/
def sendHeader (rv k v : List Char) (st : HState) : HState :=
  let st1 :=
    if rv == "HTTP/0.9".toList then st
    else { st with buffer := st.buffer ++ [k ++ (':' :: ' ' :: (v ++ ['\r', '\n']))] }
  if lowerS k == "connection".toList then
    if lowerS v == "close".toList then { st1 with close := true }
    else if lowerS v == "keep-alive".toList then { st1 with close := false }
    else st1
  else st1

/-- `flush_headers` (http_server.py:234-237): write the joined buffer
to the socket and clear it. -/
def flushHeaders (st : HState) : HState :=
  { st with wire := st.wire ++ st.buffer.flatten, buffer := [] }

/-- `end_headers` (http_server.py:228-232): for a non-0.9 request
append the blank line and flush. -/
def endHeaders (rv : List Char) (st : HState) : HState :=
  if rv == "HTTP/0.9".toList then st
  else flushHeaders { st with buffer := st.buffer ++ [['\r', '\n']] }

/-- `handle_expect_100` (http_server.py:182-188): send the bare 100
status line plus blank line, return `True`. -/
def handleExpect100 (rv pv : List Char) (st : HState) : Bool × HState :=
  (true, endHeaders rv (sendResponseOnly rv pv 100 none st))

/-- The version-token parse inside `parse_request`
(http_server.py:106-118): `version.startswith('HTTP/')`, split once at
`'/'`, split the remainder at every `'.'`, demand exactly two pieces
and parse both with `int`.  `none` is the `ValueError`/`IndexError`
path. -/
def parseVersionToken (version : List Char) : Option (Int × Int) :=
  if startsWithL "HTTP/".toList version then
    match splitOnAll '.' (afterFirst '/' version) with
    | [a, b] =>
      match pyInt a, pyInt b with
      | some x, some y => some (x, y)
      | _, _ => none
    | _ => none
  else none

/-- A successfully parsed request: `self.command`, `self.path`,
`self.request_version`, the numeric version pair computed on the way
(`none` for a two-token HTTP/0.9-style line), and `self.headers`. -/
structure PReq where
  command : List Char
  path : List Char
  requestVersion : List Char
  vnum : Option (Int × Int)
  headers : List (List Char × List Char)
deriving DecidableEq

/-- `parse_request` (http_server.py:86-180), for configured protocol
`pv`.  `raw` is `self.raw_requestline`; `stream` holds the connection's
remaining input lines; the result is (parsed request or `none` on
failure, handler state, remaining stream).  Failures call `send_error`
(which only logs) except the zero-token case, which returns silently. -/
def parseRequest (raw : List Char) (stream : List (List Char)) (pv : List Char)
    (st0 : HState) : Option PReq × HState × List (List Char) :=
  let st := { st0 with close := true }
  let words := splitWs (rstripCrlf raw)
  if words.length = 0 then (none, st, stream)
  else
    let vstep : Except (Int × HState) (HState × List Char × Option (Int × Int)) :=
      if 3 ≤ words.length then
        let version := words.getLastD []
        match parseVersionToken version with
        | none => .error (400, st)
        | some vn =>
          let st1 :=
            if tupGe vn (1, 1) && strGe pv "HTTP/1.1".toList then
              { st with close := false }
            else st
          if tupGe vn (2, 0) then .error (505, st1)
          else .ok (st1, version, some vn)
      else .ok (st, "HTTP/0.9".toList, none)
    match vstep with
    | .error (code, stE) => (none, sendError stE code, stream)
    | .ok (st1, version, vn) =>
      if words.length < 2 || 3 < words.length then
        (none, sendError st1 400, stream)
      else
        let command := words.getD 0 []
        let path := words.getD 1 []
        let st2 := if words.length = 2 then { st1 with close := true } else st1
        if words.length = 2 && !(command == "GET".toList) then
          (none, sendError st2 400, stream)
        else
          match parseHeaders stream with
          | (.error _, rest) => (none, sendError st2 431, rest)
          | (.ok hdrs, rest) =>
            let conn := lowerS (msgGet hdrs "Connection".toList [])
            let st3 :=
              if conn == "close".toList then { st2 with close := true }
              else if conn == "keep-alive".toList
                  && strGe pv "HTTP/1.1".toList then
                { st2 with close := false }
              else st2
            let expect := lowerS (msgGet hdrs "Excpet".toList [])
            if expect == "100-continue".toList
                && strGe pv "HTTP/1.1".toList
                && strGe version "HTTP/1.1".toList then
              let e100 := handleExpect100 version pv st3
              if e100.1 then
                (some ⟨command, path, version, vn, hdrs⟩, e100.2, rest)
              else (none, e100.2, rest)
            else (some ⟨command, path, version, vn, hdrs⟩, st3, rest)

/-! ## `mywerkzeug/serving.py` — `WSGIRequestHandler.run_wsgi` -/

/-- A deterministic application for the bridge: it calls
`start_response(status, headers)` once before yielding and then yields
the byte chunks of `body`. -/
structure AppSpec where
  status : List Char
  respHeaders : List (List Char × List Char)
  body : List (List Char)
deriving DecidableEq

/-- `status_sent.split(None, 1)` and the two-variable unpacking with
`ValueError` fallback (serving.py:169-172): at least two
whitespace-separated fields give (first token, remainder after the
separator run); otherwise `(status_sent, "")`. -/
def splitStatus (s : List Char) : List Char × List Char :=
  let afterWs := s.dropWhile isPyWs
  let tok := afterWs.takeWhile (fun c => !(isPyWs c))
  let rest := (afterWs.dropWhile (fun c => !(isPyWs c))).dropWhile isPyWs
  if tok.isEmpty || rest.isEmpty then (s, []) else (tok, rest)

/-- The `version_string()` result and the `Date` header value, opaque
configuration strings of the running server. -/
structure SrvCfg where
  serverStr : List Char
  dateStr : List Char
deriving DecidableEq

/-- The header-emission phase of `run_wsgi.write` (serving.py:166-199),
entered when `status_sent is None` on the first body write:
`code = int(code_str)`, `send_response(code, msg)` (log, status line,
`Server`, `Date`), one `send_header` per application header, the
chunked-transfer decision, `send_header('Connection', 'close')`,
`end_headers()`.  Result: (handler state, `chunk_response`, raised
exception if any); on an exception the state is the state at raise
time (nothing has been flushed to the wire).

The chunked branch evaluates `self.protocal_version` (serving.py:191):
neither `WSGIRequestHandler` nor any base class defines an attribute of
that misspelled name — the defined attribute is `protocol_version` —
and `WSGIRequestHandler.__getattr__` forwards unknown non-`do_` names
to the base classes, so the access raises `AttributeError`.  The `and`
short-circuits, so it is reached exactly when no Content-Length header
was set, the method is not HEAD, and the code is outside
{1xx, 204, 304}. -/
def wsgiEmitHeaders (app : AppSpec) (command rv pv : List Char) (cfg : SrvCfg)
    (st : HState) : HState × Bool × Option PyExc :=
  match pyInt (splitStatus app.status).1 with
  | none => (st, false, some .valueError)
  | some code =>
    let st1 := sendResponseOnly rv pv code (some (splitStatus app.status).2)
      { st with log := st.log ++ [code] }
    let st2 := sendHeader rv "Server".toList cfg.serverStr st1
    let st3 := sendHeader rv "Date".toList cfg.dateStr st2
    let st4 := app.respHeaders.foldl (fun s kv => sendHeader rv kv.1 kv.2 s) st3
    let headerKeys := app.respHeaders.map (fun kv => lowerS kv.1)
    if !(headerKeys.contains "content-length".toList
        || command == "HEAD".toList
        || (decide (100 ≤ code) && decide (code < 200))
        || code == 204 || code == 304) then
      (st4, false, some .attributeError)
    else
      (endHeaders rv (sendHeader rv "Connection".toList "close".toList st4),
        false, none)

/-- The body phase of `run_wsgi.write` (serving.py:200-209): nonempty
data is written to the wire, hex-length framed when `chunk_response`
is set. -/
def wsgiWriteData (chunk : Bool) (data : List Char) (st : HState) : HState :=
  if data.isEmpty then st
  else if chunk then
    { st with
      wire := st.wire
        ++ (hexStr data.length ++ (['\r', '\n'] ++ (data ++ ['\r', '\n']))) }
  else { st with wire := st.wire ++ data }

/-- The `for data in application_iter: write(data)` loop of `execute`
(serving.py:228-229).  State: handler state, "a write has happened"
(i.e. `status_sent is not None`), `chunk_response`. -/
def wsgiBodyLoop (app : AppSpec) (command rv pv : List Char) (cfg : SrvCfg) :
    List (List Char) → HState → Bool → Bool → HState × Bool × Bool × Option PyExc
  | [], st, sent, chunk => (st, sent, chunk, none)
  | data :: rest, st, sent, chunk =>
    if sent then wsgiBodyLoop app command rv pv cfg rest (wsgiWriteData chunk data st) sent chunk
    else
      match wsgiEmitHeaders app command rv pv cfg st with
      | (stE, _, some e) => (stE, sent, chunk, some e)
      | (st2, chunk2, none) =>
        wsgiBodyLoop app command rv pv cfg rest (wsgiWriteData chunk2 data st2) true chunk2

def wsgiFinish (st : HState) (chunk : Bool) : HState × Bool × Option PyExc :=
  if chunk then ({ st with wire := st.wire ++ "0\r\n\r\n".toList }, chunk, none)
  else (st, chunk, none)

/-- `execute` (serving.py:225-233): run the body loop; then
`if not headers_sent: write(b"")` — `headers_sent` is the header
*list* once a write happened, so the condition is true both when no
write happened and when the application's header list was empty (in
the latter case the extra `write(b"")` is a no-op); finally the
chunked terminator `0 CRLF CRLF` when `chunk_response` is set.  The
post-response drain (serving.py:240-255) only reads the request
stream and is modelled at the `handle` level. -/
def wsgiExecute (app : AppSpec) (command rv pv : List Char) (cfg : SrvCfg)
    (st0 : HState) : HState × Bool × Option PyExc :=
  match wsgiBodyLoop app command rv pv cfg app.body st0 false false with
  | (st, _, chunk, some e) => (st, chunk, some e)
  | (st, sent, chunk, none) =>
    if !(sent && !app.respHeaders.isEmpty) then
      if sent then wsgiFinish st chunk
      else
        match wsgiEmitHeaders app command rv pv cfg st with
        | (stE, chunkE, some e) => (stE, chunkE, some e)
        | (st2, chunk2, none) => wsgiFinish st2 chunk2
    else wsgiFinish st chunk

/-- `run_wsgi` (serving.py:151-261) up to `execute(self.server.app)`:
the `Expect: 100-continue` preamble — note the stray leading space in
the written bytes `b" HTTP/1.1 100 Continue\r\n\r\n"` (serving.py:153)
and the absence of any protocol-version guard — followed by the
environment construction (only `REQUEST_METHOD` is consumed here) and
`execute`. -/
def runWsgi (app : AppSpec) (req : PReq) (pv : List Char) (cfg : SrvCfg)
    (st : HState) : HState × Bool × Option PyExc :=
  let st0 :=
    if pyStrip (lowerS (msgGet req.headers "Expect".toList []))
        == "100-continue".toList then
      { st with wire := st.wire ++ " HTTP/1.1 100 Continue\r\n\r\n".toList }
    else st
  wsgiExecute app req.command req.requestVersion pv cfg st0

/-- The closure state of `run_wsgi`'s `start_response`/`write`
(serving.py:156-159): `status_set`, `headers_set`, `status_sent`,
`headers_sent`. -/
structure ClosState where
  statusSet : Option (List Char)
  headersSet : Option (List (List Char × List Char))
  statusSent : Option (List Char)
  headersSent : Option (List (List Char × List Char))
deriving DecidableEq

/-- Python truthiness of the optional header list (`None` and `[]` are
both falsy). -/
def optListTruthy : Option (List (List Char × List Char)) → Bool
  | none => false
  | some l => !l.isEmpty

/-- `start_response` of `run_wsgi` (serving.py:211-223): with
`exc_info` re-raise the original exception if `headers_sent` is truthy;
without it raise `AssertionError` if `headers_set` is truthy; otherwise
record status and headers. -/
def startResponseClosure (status : List Char)
    (headers : List (List Char × List Char)) (excInfo : Option PyExc)
    (cs : ClosState) : Except PyExc ClosState :=
  match excInfo with
  | some e =>
    if optListTruthy cs.headersSent then .error e
    else .ok { cs with statusSet := some status, headersSet := some headers }
  | none =>
    if optListTruthy cs.headersSet then .error .assertionError
    else .ok { cs with statusSet := some status, headersSet := some headers }

/-! ## `mywsgiref/handlers.py` — `BaseHandler.start_response` -/

/-- `is_hop_by_hop` (mywsgiref/util.py:131-139). -/
def isHopByHop (name : List Char) : Bool :=
  ["connection".toList, "keep-alive".toList, "proxy-authenticate".toList,
    "proxy-authorization".toList, "te".toList, "trailers".toList,
    "transfer-encoding".toList, "upgrade".toList].contains (lowerS name)

/-- The `BaseHandler` state variables consulted by `start_response`
(handlers.py:44-48): `status`, `headers` (`None` until set) and the
boolean `headers_sent`. -/
structure BHState where
  status : Option (List Char)
  headers : Option (List (List Char × List Char))
  headersSent : Bool
deriving DecidableEq

/-- The tail of `BaseHandler.start_response` (handlers.py:184-195):
record status and headers, then run the `assert` checks on the status
string and the hop-by-hop check on the headers (`__debug__` is true). -/
def baseStartResponseSet (status : List Char)
    (headers : List (List Char × List Char)) (bs : BHState) :
    Except PyExc BHState :=
  let bs1 := { bs with status := some status, headers := some headers }
  if !(decide (4 ≤ status.length)) then .error .assertionError
  else
    match pyInt (status.take 3) with
    | none => .error .valueError
    | some v =>
      if v == 0 then .error .assertionError
      else if !(status.getD 3 ' ' == ' ') then .error .assertionError
      else if headers.any (fun kv => isHopByHop kv.1) then .error .assertionError
      else .ok bs1

/-- `BaseHandler.start_response` (handlers.py:171-195): with `exc_info`
re-raise the original exception when `headers_sent` is set; without it
raise `AssertionError("Headers already sent")` when `self.headers` is
not `None`; then record and validate. -/
def baseStartResponse (status : List Char)
    (headers : List (List Char × List Char)) (excInfo : Option PyExc)
    (bs : BHState) : Except PyExc BHState :=
  match excInfo with
  | some e =>
    if bs.headersSent then .error e
    else baseStartResponseSet status headers bs
  | none =>
    if bs.headers.isSome then .error .assertionError
    else baseStartResponseSet status headers bs

/-! ## The per-connection loop: `handle` / `handle_one_request` -/

/-- Outcome classification of one `handle_one_request` cycle. -/
inductive CycleKind
  | eof
  | uriTooLong
  | parseFailed
  | dispatched
  | appFailed
deriving DecidableEq

structure Cycle where
  kind : CycleKind
  st : HState
deriving DecidableEq

/-- `self.rfile.readline(65537)` (http_server.py:50). -/
def readRequestLine : List (List Char) → List Char × List (List Char)
  | [] => ([], [])
  | l :: rest =>
    if l.length ≤ 65537 then (l, rest)
    else (l.take 65537, l.drop 65537 :: rest)

/-- `handle_one_request` (http_server.py:48-76) specialised to
`WSGIRequestHandler`: every `do_<METHOD>` attribute resolves to
`run_wsgi` through `__getattr__` (serving.py:301-307), so a parsed
request always dispatches to the bridge.  After `run_wsgi` returns, its
`finally` block drains pending input (serving.py:240-255); the model
assumes the client's remaining bytes are available within the drain
bounds and are consumed.  An exception escaping `execute` enters the
error-recovery path (serving.py:262-281), outside the modelled
fragment; such a cycle is marked `appFailed` and ends the modelled
trace. -/
def handleOneRequest (app : AppSpec) (pv : List Char) (cfg : SrvCfg)
    (stream : List (List Char)) (st : HState) : Cycle × List (List Char) :=
  let r := readRequestLine stream
  if 65536 < r.1.length then (⟨.uriTooLong, sendError st 414⟩, r.2)
  else if r.1.isEmpty then (⟨.eof, { st with close := true }⟩, r.2)
  else
    match parseRequest r.1 r.2 pv st with
    | (none, st2, rest) => (⟨.parseFailed, st2⟩, rest)
    | (some req, st2, _) =>
      match runWsgi app req pv cfg st2 with
      | (st3, _, none) => (⟨.dispatched, st3⟩, [])
      | (st3, _, some _) => (⟨.appFailed, st3⟩, [])

/-- `handle` (http_server.py:78-84): run `handle_one_request`, then
keep running it while `close_connection` is false.  Fuel-indexed
recursion (the caller passes `stream.length + 1`, enough for any
terminating run); the result is the trace of cycles. -/
def handleLoop (app : AppSpec) (pv : List Char) (cfg : SrvCfg) :
    Nat → List (List Char) → HState → List Cycle
  | 0, _, _ => []
  | fuel + 1, stream, st =>
    let c := handleOneRequest app pv cfg stream st
    if c.1.kind = .appFailed then [c.1]
    else if c.1.st.close then [c.1]
    else c.1 :: handleLoop app pv cfg fuel c.2 c.1.st

/-- The whole per-connection handling: `self.close_connection = True`
(http_server.py:80) and the loop. -/
def handleConn (app : AppSpec) (pv : List Char) (cfg : SrvCfg)
    (stream : List (List Char)) : List Cycle :=
  handleLoop app pv cfg (stream.length + 1) stream initState

/-- Every cycle of a trace except the last left `close_connection`
false — i.e. a cycle that set the flag is never followed by another
read. -/
def closeStops : List Cycle → Prop
  | [] => True
  | [_] => True
  | c :: rest => c.st.close = false ∧ closeStops rest

/-- The ten ASCII digits (hypothesis vocabulary for version strings). -/
def digitChars : List Char :=
  ['0', '1', '2', '3', '4', '5', '6', '7', '8', '9']

/-! ## Helper lemmas and claim theorems -/

/-! ### C4 helper lemmas -/

lemma readHeadersGoOk (ls : List (List Char)) :
    ∀ (hdrs rest : List (List Char)),
    (∀ x ∈ ls, x.length ≤ maxLine ∧ isTerm x = false) →
    hdrs.length + ls.length ≤ 99 →
    readHeadersGo hdrs (ls ++ ['\r', '\n'] :: rest)
      = (.ok (hdrs ++ ls ++ [['\r', '\n']]), rest) := by
  induction ls with
  | nil =>
    intro hdrs rest _ hlen
    have htake : List.take (maxLine + 1) (['\r', '\n'] : List Char) = ['\r', '\n'] :=
      List.take_of_length_le (by simp [maxLine])
    have hc : ¬ (maxHeaders < hdrs.length + 1) := by
      simp only [maxHeaders]; omega
    simp [readHeadersGo, htake, hc, isTerm, maxLine]
  | cons l ls ih =>
    intro hdrs rest hwf hlen
    have hl := hwf l (by simp)
    have htake : List.take (maxLine + 1) l = l :=
      List.take_of_length_le (by omega)
    have hlt : ¬ (maxLine < l.length) := by omega
    have hc : ¬ (maxHeaders < hdrs.length + 1) := by
      simp only [maxHeaders]; simp at hlen; omega
    have ihh := ih (hdrs ++ [l]) rest (fun x hx => hwf x (by simp [hx]))
      (by simp at hlen ⊢; omega)
    simp only [List.cons_append, readHeadersGo, htake, List.append_eq]
    rw [if_neg hlt, if_neg hc, if_neg (by simp [hl.2]), ihh]
    simp

lemma readHeadersGoLong (ls : List (List Char)) :
    ∀ (hdrs : List (List Char)) (l : List Char) (rest : List (List Char)),
    (∀ x ∈ ls, x.length ≤ maxLine ∧ isTerm x = false) →
    hdrs.length + ls.length ≤ 100 →
    maxLine < l.length →
    (readHeadersGo hdrs (ls ++ l :: rest)).1 = .error .lineTooLong := by
  induction ls with
  | nil =>
    intro hdrs l rest _ hlen hlong
    have hlt : maxLine < (List.take (maxLine + 1) l).length := by
      rw [List.length_take]; omega
    simp only [List.nil_append, readHeadersGo]
    rw [if_pos hlt]
  | cons x ls ih =>
    intro hdrs l rest hwf hlen hlong
    have hx := hwf x (by simp)
    have htake : List.take (maxLine + 1) x = x :=
      List.take_of_length_le (by omega)
    have hlt : ¬ (maxLine < x.length) := by omega
    have hc : ¬ (maxHeaders < hdrs.length + 1) := by
      simp only [maxHeaders]; simp at hlen; omega
    simp only [List.cons_append, readHeadersGo, htake, List.append_eq]
    rw [if_neg hlt, if_neg hc, if_neg (by simp [hx.2])]
    exact ih (hdrs ++ [x]) l rest (fun y hy => hwf y (by simp [hy]))
      (by simp at hlen ⊢; omega) hlong

lemma readHeadersGoMany (ls : List (List Char)) :
    ∀ (hdrs : List (List Char)) (lst : List Char) (rest : List (List Char)),
    (∀ x ∈ ls, x.length ≤ maxLine ∧ isTerm x = false) →
    hdrs.length + ls.length = 100 →
    lst.length ≤ maxLine →
    (readHeadersGo hdrs (ls ++ lst :: rest)).1 = .error .tooManyHeaders := by
  induction ls with
  | nil =>
    intro hdrs lst rest _ hlen hsmall
    have htake : List.take (maxLine + 1) lst = lst :=
      List.take_of_length_le (by omega)
    have hlt : ¬ (maxLine < lst.length) := by omega
    have hc : maxHeaders < hdrs.length + 1 := by
      simp only [maxHeaders]; simp at hlen; omega
    simp only [List.nil_append, readHeadersGo, htake]
    rw [if_neg hlt, if_pos hc]
  | cons x ls ih =>
    intro hdrs lst rest hwf hlen hsmall
    have hx := hwf x (by simp)
    have htake : List.take (maxLine + 1) x = x :=
      List.take_of_length_le (by omega)
    have hlt : ¬ (maxLine < x.length) := by omega
    have hc : ¬ (maxHeaders < hdrs.length + 1) := by
      simp only [maxHeaders]; simp at hlen; omega
    simp only [List.cons_append, readHeadersGo, htake, List.append_eq]
    rw [if_neg hlt, if_neg hc, if_neg (by simp [hx.2])]
    exact ih (hdrs ++ [x]) lst rest (fun y hy => hwf y (by simp [hy]))
      (by simp at hlen ⊢; omega) hsmall

lemma dropWhileOfNone {p : Char → Bool} {l : List Char}
    (h : ∀ c ∈ l, p c = false) : l.dropWhile p = l := by
  cases l with
  | nil => rfl
  | cons a t => simp [List.dropWhile, h a (by simp)]

lemma takeWhileAppendAll {p : Char → Bool} (a b : List Char)
    (h : ∀ c ∈ a, p c = true) :
    (a ++ b).takeWhile p = a ++ b.takeWhile p := by
  induction a with
  | nil => rfl
  | cons c t ih =>
    simp only [List.cons_append, List.takeWhile_cons, h c (by simp)]
    rw [ih (fun x hx => h x (by simp [hx]))]
    simp

lemma afterFirstAppend (sep : Char) (a b : List Char) (h : sep ∉ a) :
    afterFirst sep (a ++ sep :: b) = b := by
  induction a with
  | nil => simp [afterFirst]
  | cons c t ih =>
    have hc : ¬ (c = sep) := fun hc => h (by simp [hc])
    simp only [List.cons_append, afterFirst, if_neg hc]
    exact ih (fun hx => h (by simp [hx]))

lemma lengthDropWhileLe (p : Char → Bool) (l : List Char) :
    (l.dropWhile p).length ≤ l.length := by
  induction l with
  | nil => simp
  | cons a t ih =>
    rw [List.dropWhile_cons]
    split
    · exact Nat.le_succ_of_le ih
    · simp

lemma rstripAppendCrlf (v : List Char) (hcr : '\r' ∉ v) (hlf : '\n' ∉ v) :
    rstripCrlf (v ++ ['\r', '\n']) = v := by
  unfold rstripCrlf dropTrailWhile
  rw [List.reverse_append]
  rw [show (['\r', '\n'] : List Char).reverse = ['\n', '\r'] from rfl]
  simp only [List.cons_append, List.nil_append]
  rw [List.dropWhile_cons, if_pos (by decide), List.dropWhile_cons,
    if_pos (by decide)]
  rw [dropWhileOfNone, List.reverse_reverse]
  intro c hc
  rw [List.mem_reverse] at hc
  have h1 : ¬ (c = '\r') := fun he => hcr (he ▸ hc)
  have h2 : ¬ (c = '\n') := fun he => hlf (he ▸ hc)
  simp [h1, h2]

lemma valueExtract (v : List Char) (hcr : '\r' ∉ v) (hlf : '\n' ∉ v)
    (hws : v.dropWhile isPyWs = v) :
    rstripCrlf ((' ' :: (v ++ ['\r', '\n'])).dropWhile isPyWs) = v := by
  rw [List.dropWhile_cons, if_pos (show isPyWs ' ' = true by decide)]
  cases v with
  | nil => decide
  | cons c t =>
    have hcws : isPyWs c = false := by
      by_contra hcon
      rw [Bool.not_eq_false] at hcon
      rw [List.dropWhile_cons, if_pos hcon] at hws
      have hle : (t.dropWhile isPyWs).length ≤ t.length := lengthDropWhileLe _ _
      rw [hws] at hle
      simp at hle
    rw [show ((c :: t) ++ ['\r', '\n']) = c :: (t ++ ['\r', '\n']) from rfl]
    rw [List.dropWhile_cons, if_neg (by simp [hcws])]
    exact rstripAppendCrlf (c :: t) hcr hlf

lemma pairLineFacts (p : List Char × List Char) (h : pairWf p) :
    (lineOf p).length ≤ maxLine ∧ isTerm (lineOf p) = false
    ∧ (lineOf p).any (fun c => c = ':') = true
    ∧ (lineOf p).takeWhile (fun c => !(c = ':')) = p.1
    ∧ rstripCrlf ((afterFirst ':' (lineOf p)).dropWhile isPyWs) = p.2 := by
  obtain ⟨hne, hcol, hcr, hlf, hws, hlen⟩ := h
  have hl : (lineOf p).length = p.1.length + p.2.length + 4 := by
    simp [lineOf]
    omega
  have h1 : 1 ≤ p.1.length := List.length_pos.mpr hne
  refine ⟨?_, ?_, ?_, ?_, ?_⟩
  · rw [hl]; exact hlen
  · have hnt : (lineOf p) ≠ ['\r', '\n'] ∧ (lineOf p) ≠ ['\n']
        ∧ (lineOf p) ≠ [] := by
      refine ⟨?_, ?_, ?_⟩ <;>
        · intro hcontra
          have hlc := congrArg List.length hcontra
          rw [hl] at hlc
          simp only [List.length_cons, List.length_nil] at hlc
          omega
    simp [isTerm, hnt.1, hnt.2.1, hnt.2.2]
  · simp [lineOf, List.any_append]
  · have hall : ∀ c ∈ p.1, (!(c = ':')) = true := by
      intro c hc
      have hc2 : ¬ (c = ':') := fun he => hcol (he ▸ hc)
      simp [hc2]
    rw [lineOf, takeWhileAppendAll _ _ hall]
    simp [List.takeWhile_cons]
  · rw [lineOf, afterFirstAppend ':' _ _ hcol]
    exact valueExtract p.2 hcr hlf hws


/-! ### C10 -/

lemma filterOfFilterNot {α : Type} (p : α → Bool) (l : List α) :
    (l.filter fun a => !(p a)).filter p = [] := by
  induction l with
  | nil => rfl
  | cons a t ih =>
    cases h : p a <;> simp [List.filter_cons, h, ih]

lemma filterNotIdem {α : Type} (p : α → Bool) (l : List α) :
    (l.filter fun a => !(p a)).filter (fun a => !(p a))
      = l.filter fun a => !(p a) := by
  induction l with
  | nil => rfl
  | cons a t ih =>
    cases h : p a <;> simp [List.filter_cons, h, ih]

/-- C10: after `h[n] = v`, `get_all(n)` returns exactly `[v]`; every
pair with a case-insensitively different name is kept with relative
order unchanged; and the new pair is the last element. -/
theorem c10_setitem_spec (hs : List (List Char × List Char)) (n v : List Char) :
    headersGetAll (headersSet hs n v) n = [v]
    ∧ (headersSet hs n v).filter (fun kv => !(lowerS kv.1 == lowerS n))
        = hs.filter (fun kv => !(lowerS kv.1 == lowerS n))
    ∧ (headersSet hs n v).getLast? = some (n, v) := by
  refine ⟨?_, ?_, ?_⟩
  · simp only [headersGetAll, headersSet, headersDel, List.filter_append]
    rw [filterOfFilterNot (fun kv => lowerS kv.1 == lowerS n) hs]
    simp [List.filter_cons]
  · simp only [headersSet, headersDel, List.filter_append]
    rw [filterNotIdem (fun kv => lowerS kv.1 == lowerS n) hs]
    simp [List.filter_cons]
  · simp only [headersSet]
    exact List.getLast?_concat _

/-! ### C1 -/

/-- C1: the chunked-framing branch of `run_wsgi.write`.  Whenever the
response qualifies for chunked transfer (no `Content-Length` header
from the application, method ≠ HEAD, code outside {1xx, 204, 304}),
evaluating the condition's right conjunct `self.protocal_version`
raises `AttributeError` — the attribute name is misspelled and no
class in the hierarchy defines it — so the bridge never adds
`Transfer-Encoding: chunked` and never emits a chunk.  Concretely, a
`GET` returning `200 OK` with only a `Content-Type` header and body
`b"Hello, World!"` under negotiated and configured HTTP/1.1 aborts
with `AttributeError` before anything reaches the wire. -/
theorem c1_chunked_mode_raises_attribute_error :
    (∀ (app : AppSpec) (command rv pv : List Char) (cfg : SrvCfg)
        (st : HState) (code : Int),
       pyInt (splitStatus app.status).1 = some code →
       (app.respHeaders.map (fun kv => lowerS kv.1)).contains
           "content-length".toList = false →
       (command == "HEAD".toList) = false →
       ¬ (100 ≤ code ∧ code < 200) → code ≠ 204 → code ≠ 304 →
       (wsgiEmitHeaders app command rv pv cfg st).2.2
         = some PyExc.attributeError)
    ∧ (runWsgi
        ⟨"200 OK".toList, [("Content-Type".toList, "text/html".toList)],
          ["Hello, World!".toList]⟩
        { command := "GET".toList, path := "/".toList,
          requestVersion := "HTTP/1.1".toList, vnum := some (1, 1),
          headers := [("Host".toList, "x".toList)] }
        "HTTP/1.1".toList ⟨"Srv".toList, "Date".toList⟩ initState).2.2
      = some PyExc.attributeError
    ∧ (runWsgi
        ⟨"200 OK".toList, [("Content-Type".toList, "text/html".toList)],
          ["Hello, World!".toList]⟩
        { command := "GET".toList, path := "/".toList,
          requestVersion := "HTTP/1.1".toList, vnum := some (1, 1),
          headers := [("Host".toList, "x".toList)] }
        "HTTP/1.1".toList ⟨"Srv".toList, "Date".toList⟩ initState).1.wire
      = [] := by
  refine ⟨?_, by decide, by decide⟩
  intro app command rv pv cfg st code hpy hcl hcmd hinfo h204 h304
  have h45 : (decide (100 ≤ code) && decide (code < 200)) = false := by
    by_cases hc1 : 100 ≤ code
    · have hc2 : ¬ (code < 200) := fun hlt => hinfo ⟨hc1, hlt⟩
      simp [hc1, hc2]
    · simp [hc1]
  have hb204 : (code == 204) = false := by
    simp only [beq_eq_false_iff_ne, ne_eq]; exact h204
  have hb304 : (code == 304) = false := by
    simp only [beq_eq_false_iff_ne, ne_eq]; exact h304
  simp only [wsgiEmitHeaders, hpy, hcl, hcmd, h45, hb204, hb304,
    Bool.or_false, Bool.or_self, Bool.not_false, if_true]

/-- Witness for C1's universal part, at the concrete failing input. -/
theorem c1_witness :
    (wsgiEmitHeaders
      ⟨"200 OK".toList, [("Content-Type".toList, "text/html".toList)],
        ["Hello, World!".toList]⟩
      "GET".toList "HTTP/1.1".toList "HTTP/1.1".toList
      ⟨"Srv".toList, "Date".toList⟩ initState).2.2
    = some PyExc.attributeError :=
  c1_chunked_mode_raises_attribute_error.1 _ _ _ _ _ _ 200
    (by decide) (by decide) (by decide) (by decide) (by decide) (by decide)

/-! ### C3 helper lemmas -/

lemma digitCharFacts (c : Char) (h : c ∈ digitChars) :
    isDigitC c = true ∧ isPyWs c = false ∧ ¬ c = '.' ∧ ¬ c = '_'
      ∧ ¬ c = '+' ∧ ¬ c = '-' := by
  fin_cases h <;> exact ⟨by decide, by decide, by decide, by decide,
    by decide, by decide⟩

lemma digitsTailAll (l : List Char)
    (h : ∀ c ∈ l, isDigitC c = true ∧ ¬ c = '_') : digitsTail l = true := by
  induction l with
  | nil => rfl
  | cons c t ih =>
    have hc := h c (by simp)
    cases t with
    | nil =>
      rw [show digitsTail [c]
          = if c = '_' then false else isDigitC c && digitsTail [] from rfl]
      rw [if_neg hc.2, hc.1]
      rfl
    | cons d r =>
      rw [show digitsTail (c :: d :: r)
          = if c = '_' then isDigitC d && digitsTail r
            else isDigitC c && digitsTail (d :: r) from rfl]
      rw [if_neg hc.2, hc.1, ih (fun x hx => h x (by simp [hx]))]
      rfl

lemma digitsOkAll (l : List Char)
    (h : ∀ c ∈ l, isDigitC c = true ∧ ¬ c = '_') (hne : l ≠ []) :
    digitsOk l = true := by
  obtain ⟨c, t, rfl⟩ := List.exists_cons_of_ne_nil hne
  have hc := h c (by simp)
  simp only [digitsOk, hc.1, Bool.true_and]
  exact digitsTailAll t (fun x hx => h x (by simp [hx]))

lemma stripUnderscoresAll (l : List Char) (h : ∀ c ∈ l, ¬ c = '_') :
    stripUnderscores l = l := by
  induction l with
  | nil => rfl
  | cons c t ih =>
    simp only [stripUnderscores, List.filter_cons] at ih ⊢
    rw [if_pos (by simp [h c (by simp)]), ih (fun x hx => h x (by simp [hx]))]

lemma pyStripOfNoWs (l : List Char) (h : ∀ c ∈ l, isPyWs c = false) :
    pyStrip l = l := by
  unfold pyStrip dropTrailWhile
  rw [dropWhileOfNone h,
    dropWhileOfNone (fun c hc => h c (List.mem_reverse.mp hc)),
    List.reverse_reverse]

lemma pyIntDigits (l : List Char) (h : ∀ c ∈ l, c ∈ digitChars)
    (hne : l ≠ []) : pyInt l = some ((natOfDigits l : Int)) := by
  have hws : ∀ c ∈ l, isPyWs c = false :=
    fun c hc => (digitCharFacts c (h c hc)).2.1
  have hdu : ∀ c ∈ l, isDigitC c = true ∧ ¬ c = '_' :=
    fun c hc => ⟨(digitCharFacts c (h c hc)).1,
      (digitCharFacts c (h c hc)).2.2.2.1⟩
  obtain ⟨c, t, rfl⟩ := List.exists_cons_of_ne_nil hne
  have hcf := digitCharFacts c (h c (by simp))
  simp only [pyInt, pyStripOfNoWs _ hws]
  rw [if_neg hcf.2.2.2.2.1, if_neg hcf.2.2.2.2.2,
    if_pos (digitsOkAll _ hdu (by simp)),
    stripUnderscoresAll _ (fun x hx => (digitCharFacts x (h x hx)).2.2.2.1)]

lemma natOfDigitsLeadZero (m : List Char) :
    natOfDigits ('0' :: m) = natOfDigits m := rfl

lemma startsWithLAppend (a b : List Char) : startsWithL a (a ++ b) = true := by
  induction a with
  | nil => rfl
  | cons c t ih => simpa [startsWithL] using ih

lemma afterFirstSlashHTTP (x : List Char) :
    afterFirst '/' ("HTTP/".toList ++ x) = x := by
  show afterFirst '/' ('H' :: 'T' :: 'T' :: 'P' :: '/' :: x) = x
  simp [afterFirst]

lemma splitOnAllNoSep (sep : Char) (l : List Char)
    (h : ∀ c ∈ l, ¬ c = sep) : splitOnAll sep l = [l] := by
  induction l with
  | nil => rfl
  | cons c t ih =>
    simp only [splitOnAll, if_neg (h c (by simp))]
    rw [ih (fun x hx => h x (by simp [hx]))]

lemma splitOnAllSepMid (sep : Char) (a b : List Char)
    (ha : ∀ c ∈ a, ¬ c = sep) :
    splitOnAll sep (a ++ sep :: b) = a :: splitOnAll sep b := by
  induction a with
  | nil => simp [splitOnAll]
  | cons c t ih =>
    simp only [List.cons_append, splitOnAll, if_neg (ha c (by simp)),
      List.append_eq]
    rw [ih (fun x hx => ha x (by simp [hx]))]

lemma parseVersionTokenDigits (m n : List Char)
    (hm : ∀ c ∈ m, c ∈ digitChars) (hn : ∀ c ∈ n, c ∈ digitChars)
    (hmne : m ≠ []) (hnne : n ≠ []) :
    parseVersionToken ("HTTP/".toList ++ (m ++ ('.' :: n)))
      = some ((natOfDigits m : Int), (natOfDigits n : Int)) := by
  unfold parseVersionToken
  rw [if_pos (startsWithLAppend "HTTP/".toList (m ++ ('.' :: n))),
    afterFirstSlashHTTP,
    splitOnAllSepMid '.' m n (fun c hc => (digitCharFacts c (hm c hc)).2.2.1),
    splitOnAllNoSep '.' n (fun c hc => (digitCharFacts c (hn c hc)).2.2.1)]
  show (match pyInt m, pyInt n with
    | some x, some y => some (x, y)
    | _, _ => none)
    = some ((natOfDigits m : Int), (natOfDigits n : Int))
  rw [pyIntDigits m hm hmne, pyIntDigits n hn hnne]

lemma splitWsGoTok (a : List Char) : ∀ (acc rest : List Char),
    (∀ c ∈ a, isPyWs c = false) → (acc = [] → a ≠ []) →
    splitWsGo acc (a ++ ' ' :: rest)
      = (acc.reverse ++ a) :: splitWsGo [] rest := by
  induction a with
  | nil =>
    intro acc rest _ hne
    have hacc : acc ≠ [] := fun hc => (hne hc) rfl
    obtain ⟨c, t, rfl⟩ := List.exists_cons_of_ne_nil hacc
    have hsp : isPyWs ' ' = true := by decide
    simp [splitWsGo, hsp]
  | cons c t ih =>
    intro acc rest h hne
    have hc : isPyWs c = false := h c (by simp)
    simp only [List.cons_append, splitWsGo, hc, Bool.false_eq_true, if_false,
      List.append_eq]
    rw [ih (c :: acc) rest (fun x hx => h x (by simp [hx])) (by simp)]
    simp

lemma splitWsGoLast (a : List Char) : ∀ (acc : List Char),
    (∀ c ∈ a, isPyWs c = false) → (acc = [] → a ≠ []) →
    splitWsGo acc a = [acc.reverse ++ a] := by
  induction a with
  | nil =>
    intro acc _ hne
    have hacc : acc ≠ [] := fun hc => (hne hc) rfl
    obtain ⟨c, t, rfl⟩ := List.exists_cons_of_ne_nil hacc
    simp [splitWsGo]
  | cons c t ih =>
    intro acc h hne
    have hc : isPyWs c = false := h c (by simp)
    simp only [splitWsGo, hc, Bool.false_eq_true, if_false, List.append_eq]
    rw [ih (c :: acc) (fun x hx => h x (by simp [hx])) (by simp)]
    simp

lemma splitWsThree (t1 t2 t3 : List Char)
    (h1 : ∀ c ∈ t1, isPyWs c = false) (hne1 : t1 ≠ [])
    (h2 : ∀ c ∈ t2, isPyWs c = false) (hne2 : t2 ≠ [])
    (h3 : ∀ c ∈ t3, isPyWs c = false) (hne3 : t3 ≠ []) :
    splitWs (t1 ++ (' ' :: (t2 ++ (' ' :: t3)))) = [t1, t2, t3] := by
  unfold splitWs
  rw [splitWsGoTok t1 [] _ h1 (fun _ => hne1),
    splitWsGoTok t2 [] _ h2 (fun _ => hne2),
    splitWsGoLast t3 [] h3 (fun _ => hne3)]
  simp

lemma lineNotMemWs (t1 t2 v : List Char) (c : Char)
    (hc : isPyWs c = true) (hsp : ¬ c = ' ')
    (h1 : ∀ x ∈ t1, isPyWs x = false) (h2 : ∀ x ∈ t2, isPyWs x = false)
    (h3 : ∀ x ∈ v, isPyWs x = false) :
    c ∉ (t1 ++ (' ' :: (t2 ++ (' ' :: v)))) := by
  intro hm
  simp only [List.mem_append, List.mem_cons] at hm
  rcases hm with hm | hm | hm | hm | hm
  · simp [h1 _ hm] at hc
  · exact hsp hm
  · simp [h2 _ hm] at hc
  · exact hsp hm
  · simp [h3 _ hm] at hc

lemma versionTokenWsFree (m n : List Char)
    (hm : ∀ c ∈ m, c ∈ digitChars) (hn : ∀ c ∈ n, c ∈ digitChars) :
    ∀ c ∈ ("HTTP/".toList ++ (m ++ ('.' :: n))), isPyWs c = false := by
  intro c hc
  simp only [List.mem_append, List.mem_cons] at hc
  rcases hc with hc | hc | hc | hc
  · fin_cases hc <;> decide
  · exact (digitCharFacts c (hm c hc)).2.1
  · rw [hc]; decide
  · exact (digitCharFacts c (hn c hc)).2.1

/-- C3: version negotiation is numeric.  For a request line of exactly
three whitespace-separated tokens whose last token is
`HTTP/<M>.<N>` with digit strings `M`, `N`: the parsed version is the
numeric pair (leading zeros ignored, since the digit fold is
position-independent — `natOfDigits ('0'::m) = natOfDigits m` by
definition); the request is rejected with 505 exactly when
`(M,N) ≥ (2,0)` as an integer pair and otherwise accepted with that
numeric version recorded; a structurally malformed version token
(`parseVersionToken` = `ValueError`) yields 400; and the order used is
the tuple order, not string order — `(2,2) < (10,0)` numerically while
`"2.2" ≥ "10.0"` as strings. -/
theorem c3_numeric_version_negotiation :
    (∀ (t1 t2 m n : List Char) (stream : List (List Char)) (pv : List Char)
        (st : HState),
      (∀ c ∈ t1, isPyWs c = false) → t1 ≠ [] →
      (∀ c ∈ t2, isPyWs c = false) → t2 ≠ [] →
      (∀ c ∈ m, c ∈ digitChars) → m ≠ [] →
      (∀ c ∈ n, c ∈ digitChars) → n ≠ [] →
      parseVersionToken ("HTTP/".toList ++ (m ++ ('.' :: n)))
          = some ((natOfDigits m : Int), (natOfDigits n : Int))
      ∧ (tupGe ((natOfDigits m : Int), (natOfDigits n : Int)) (2, 0) = true →
         parseRequest
             ((t1 ++ (' ' :: (t2 ++ (' ' :: ("HTTP/".toList ++ (m ++ ('.' :: n)))))))
               ++ ['\r', '\n'])
             stream pv st
           = (none,
              sendError
                (if tupGe ((natOfDigits m : Int), (natOfDigits n : Int)) (1, 1)
                    && strGe pv "HTTP/1.1".toList then
                   { st with close := false }
                 else { st with close := true })
                505,
              stream))
      ∧ (tupGe ((natOfDigits m : Int), (natOfDigits n : Int)) (2, 0) = false →
         parseRequest
             ((t1 ++ (' ' :: (t2 ++ (' ' :: ("HTTP/".toList ++ (m ++ ('.' :: n)))))))
               ++ ['\r', '\n'])
             [['\r', '\n']] pv st
           = (some ⟨t1, t2, "HTTP/".toList ++ (m ++ ('.' :: n)),
                some ((natOfDigits m : Int), (natOfDigits n : Int)), []⟩,
              (if tupGe ((natOfDigits m : Int), (natOfDigits n : Int)) (1, 1)
                  && strGe pv "HTTP/1.1".toList then
                 { st with close := false }
               else { st with close := true }),
              [])))
    ∧ (∀ (t1 t2 v : List Char) (stream : List (List Char)) (pv : List Char)
        (st : HState),
       (∀ c ∈ t1, isPyWs c = false) → t1 ≠ [] →
       (∀ c ∈ t2, isPyWs c = false) → t2 ≠ [] →
       (∀ c ∈ v, isPyWs c = false) → v ≠ [] →
       parseVersionToken v = none →
       parseRequest ((t1 ++ (' ' :: (t2 ++ (' ' :: v)))) ++ ['\r', '\n'])
           stream pv st
         = (none, sendError { st with close := true } 400, stream))
    ∧ tupGe (2, 2) (10, 0) = false
    ∧ strGe "2.2".toList "10.0".toList = true
    ∧ (∀ m : List Char, natOfDigits ('0' :: m) = natOfDigits m) := by
  refine ⟨?_, ?_, by decide, by decide, fun m => rfl⟩
  · intro t1 t2 m n stream pv st h1 hne1 h2 hne2 hm hmne hn hnne
    have hVws := versionTokenWsFree m n hm hn
    have hcr : '\r' ∉ (t1 ++ (' ' :: (t2 ++ (' ' ::
        ("HTTP/".toList ++ (m ++ ('.' :: n))))))) :=
      lineNotMemWs _ _ _ '\r' (by decide) (by decide) h1 h2 hVws
    have hlf : '\n' ∉ (t1 ++ (' ' :: (t2 ++ (' ' ::
        ("HTTP/".toList ++ (m ++ ('.' :: n))))))) :=
      lineNotMemWs _ _ _ '\n' (by decide) (by decide) h1 h2 hVws
    have hVne : ("HTTP/".toList ++ (m ++ ('.' :: n))) ≠ [] := by
      intro hcontra
      have := congrArg List.length hcontra
      simp at this
    have hsplit := splitWsThree t1 t2 _ h1 hne1 h2 hne2 hVws hVne
    have hpv := parseVersionTokenDigits m n hm hn hmne hnne
    have hlast : ([t1, t2, "HTTP/".toList ++ (m ++ ('.' :: n))] :
        List (List Char)).getLastD [] = "HTTP/".toList ++ (m ++ ('.' :: n)) := rfl
    have hg0 : ([t1, t2, "HTTP/".toList ++ (m ++ ('.' :: n))] :
        List (List Char)).getD 0 [] = t1 := rfl
    have hg1 : ([t1, t2, "HTTP/".toList ++ (m ++ ('.' :: n))] :
        List (List Char)).getD 1 [] = t2 := rfl
    have hph : parseHeaders [['\r', '\n']]
        = (.ok ([] : List (List Char × List Char)), ([] : List (List Char))) :=
      rfl
    have hc1 : ¬ (lowerS (msgGet ([] : List (List Char × List Char))
        ['C', 'o', 'n', 'n', 'e', 'c', 't', 'i', 'o', 'n'] [])
        = ['c', 'l', 'o', 's', 'e']) := by decide
    have hc2 : ¬ (lowerS (msgGet ([] : List (List Char × List Char))
        ['C', 'o', 'n', 'n', 'e', 'c', 't', 'i', 'o', 'n'] [])
        = ['k', 'e', 'e', 'p', '-', 'a', 'l', 'i', 'v', 'e']) := by decide
    have hc3 : ¬ (lowerS (msgGet ([] : List (List Char × List Char))
        ['E', 'x', 'c', 'p', 'e', 't'] [])
        = ['1', '0', '0', '-', 'c', 'o', 'n', 't', 'i', 'n', 'u', 'e']) := by
      decide
    refine ⟨hpv, ?_, ?_⟩
    · intro hge2
      by_cases hd : (tupGe ((natOfDigits m : Int), (natOfDigits n : Int)) (1, 1)
          && strGe pv "HTTP/1.1".toList) = true
      · unfold parseRequest
        rw [rstripAppendCrlf _ hcr hlf, hsplit]
        dsimp only
        rw [hlast, hpv]
        simp [hge2, hd, sendError]
      · have hd2 : ¬ (tupGe ((natOfDigits m : Int), (natOfDigits n : Int))
            (1, 1) = true ∧ strGe pv "HTTP/1.1".toList = true) := by
          rw [← Bool.and_eq_true]; exact hd
        unfold parseRequest
        rw [rstripAppendCrlf _ hcr hlf, hsplit]
        dsimp only
        rw [hlast, hpv]
        simp [hge2, hd2, sendError]
    · intro hge2
      by_cases hd : (tupGe ((natOfDigits m : Int), (natOfDigits n : Int)) (1, 1)
          && strGe pv "HTTP/1.1".toList) = true
      · unfold parseRequest
        rw [rstripAppendCrlf _ hcr hlf, hsplit]
        dsimp only
        rw [hlast, hpv]
        simp [hg0, hg1, hge2, hd, hph, hc1, hc2, hc3, sendError]
      · have hd2 : ¬ (tupGe ((natOfDigits m : Int), (natOfDigits n : Int))
            (1, 1) = true ∧ strGe pv "HTTP/1.1".toList = true) := by
          rw [← Bool.and_eq_true]; exact hd
        unfold parseRequest
        rw [rstripAppendCrlf _ hcr hlf, hsplit]
        dsimp only
        rw [hlast, hpv]
        simp [hg0, hg1, hge2, hd2, hph, hc1, hc2, hc3, sendError]
  · intro t1 t2 v stream pv st h1 hne1 h2 hne2 hv hvne hbad
    have hcr : '\r' ∉ (t1 ++ (' ' :: (t2 ++ (' ' :: v)))) :=
      lineNotMemWs _ _ _ '\r' (by decide) (by decide) h1 h2 hv
    have hlf : '\n' ∉ (t1 ++ (' ' :: (t2 ++ (' ' :: v)))) :=
      lineNotMemWs _ _ _ '\n' (by decide) (by decide) h1 h2 hv
    have hsplit := splitWsThree t1 t2 v h1 hne1 h2 hne2 hv hvne
    have hlast : ([t1, t2, v] : List (List Char)).getLastD [] = v := rfl
    unfold parseRequest
    rw [rstripAppendCrlf _ hcr hlf, hsplit]
    dsimp only
    rw [hlast, hbad]
    simp [sendError]

/-- Witness for C3 at the concrete request line `GET / HTTP/2.0` against
configured protocol HTTP/1.1: all hypotheses hold and the request is
rejected with a 505 log entry. -/
theorem c3_witness :
    (∀ c ∈ "GET".toList, isPyWs c = false) ∧ "GET".toList ≠ []
    ∧ (∀ c ∈ "/".toList, isPyWs c = false) ∧ "/".toList ≠ []
    ∧ (∀ c ∈ ['2'], c ∈ digitChars) ∧ (['2'] : List Char) ≠ []
    ∧ (∀ c ∈ ['0'], c ∈ digitChars) ∧ (['0'] : List Char) ≠ []
    ∧ tupGe ((natOfDigits ['2'] : Int), (natOfDigits ['0'] : Int)) (2, 0) = true
    ∧ parseRequest ("GET / HTTP/2.0".toList ++ ['\r', '\n']) []
        "HTTP/1.1".toList initState
      = (none,
         sendError
           (if tupGe ((natOfDigits ['2'] : Int), (natOfDigits ['0'] : Int)) (1, 1)
               && strGe "HTTP/1.1".toList "HTTP/1.1".toList then
              { initState with close := false }
            else { initState with close := true })
           505,
         []) := by
  refine ⟨by decide, by decide, by decide, by decide, by decide, by decide,
    by decide, by decide, by decide, ?_⟩
  exact (c3_numeric_version_negotiation.1 "GET".toList "/".toList ['2'] ['0']
    [] "HTTP/1.1".toList initState (by decide) (by decide) (by decide)
    (by decide) (by decide) (by decide) (by decide) (by decide)).2.1 (by decide)

/-! ### C2 -/

/-- C2: the code at the failing input.  On `GET / HTTP/2.0` (over a
connection with configured protocol HTTP/1.1) `parse_request` fails and
calls `send_error(505)`, but `send_error` only logs: no status line and
no HTML body reach the client — the wire output is empty, and
`send_error` leaves the wire untouched for every state and code. -/
theorem c2_send_error_sends_nothing :
    (parseRequest "GET / HTTP/2.0\r\n".toList [] "HTTP/1.1".toList initState).1 = none
    ∧ (parseRequest "GET / HTTP/2.0\r\n".toList [] "HTTP/1.1".toList
        initState).2.1.log = [505]
    ∧ (parseRequest "GET / HTTP/2.0\r\n".toList [] "HTTP/1.1".toList
        initState).2.1.wire = []
    ∧ (∀ st code, (sendError st code).wire = st.wire
        ∧ (sendError st code).buffer = st.buffer) := by
  exact ⟨by decide, by decide, by decide, fun st code => ⟨rfl, rfl⟩⟩

/-! ### C6 -/

/-- C6: the code at the failing input.  With configured protocol
HTTP/1.1, a request line `GET / HTTP/2.0` makes `parse_request` set
`close_connection = False` (the `>= (1,1)` default fires before the
`>= (2,0)` rejection) and `send_error` never resets it, so after the
505 failure the handler loop reads and parses a second request on the
same connection — the trace on two such request lines has three cycles
(two parse failures, then EOF), logging 505 twice.  The claim requires
the connection to close after the first failure. -/
theorem c6_loop_continues_after_505 :
    (handleConn ⟨"200 OK".toList, [], []⟩ "HTTP/1.1".toList ⟨[], []⟩
        ["GET / HTTP/2.0\r\n".toList, "GET / HTTP/2.0\r\n".toList]).map
        (fun c => (c.kind, c.st.close, c.st.log))
      = [(.parseFailed, false, [505]),
         (.parseFailed, false, [505, 505]),
         (.eof, true, [505, 505])] := by
  decide

/-! ### C8 -/

/-- C8: the code at the failing input.  For a request carrying
`Expect: 100-continue` with negotiated and configured protocol both
HTTP/1.1: (a) `parse_request` looks the header up under the misspelled
key `'Excpet'`, finds nothing, and sends no interim response (wire
stays empty); (b) `run_wsgi` then writes the preamble bytes
`b" HTTP/1.1 100 Continue\r\n\r\n"` — with a stray leading space, so
not exactly a `100 Continue` status line — and does so without any
protocol-version check: the same bytes are emitted for an HTTP/1.0
request. -/
theorem c8_expect_100_continue_divergence :
    (parseRequest "GET / HTTP/1.1\r\n".toList
        ["Expect: 100-continue\r\n".toList, "\r\n".toList]
        "HTTP/1.1".toList initState).1
      = some { command := "GET".toList, path := "/".toList,
               requestVersion := "HTTP/1.1".toList, vnum := some (1, 1),
               headers := [("Expect".toList, "100-continue".toList)] }
    ∧ (parseRequest "GET / HTTP/1.1\r\n".toList
        ["Expect: 100-continue\r\n".toList, "\r\n".toList]
        "HTTP/1.1".toList initState).2.1.wire = []
    ∧ msgGet [("Expect".toList, "100-continue".toList)] "Excpet".toList [] = []
    ∧ (runWsgi ⟨"200 OK".toList, [("Content-Length".toList, "13".toList)],
          ["Hello, World!".toList]⟩
        { command := "GET".toList, path := "/".toList,
          requestVersion := "HTTP/1.1".toList, vnum := some (1, 1),
          headers := [("Expect".toList, "100-continue".toList)] }
        "HTTP/1.1".toList ⟨"Srv".toList, "Date".toList⟩
        initState).1.wire.take 26 = " HTTP/1.1 100 Continue\r\n\r\n".toList
    ∧ " HTTP/1.1 100 Continue\r\n\r\n".toList
        ≠ "HTTP/1.1 100 Continue\r\n\r\n".toList
    ∧ (runWsgi ⟨"200 OK".toList, [("Content-Length".toList, "13".toList)],
          ["Hello, World!".toList]⟩
        { command := "GET".toList, path := "/".toList,
          requestVersion := "HTTP/1.0".toList, vnum := some (1, 0),
          headers := [("Expect".toList, "100-continue".toList)] }
        "HTTP/1.0".toList ⟨"Srv".toList, "Date".toList⟩
        initState).1.wire.take 26 = " HTTP/1.1 100 Continue\r\n\r\n".toList := by
  refine ⟨by decide, by decide, by decide, by decide, by decide, by decide⟩

/-- `handle_expect_100` always returns `True` (http_server.py:182-188). -/
theorem handleExpect100Fst (rv pv : List Char) (st : HState) :
    (handleExpect100 rv pv st).1 = true := rfl

/-- `handle_expect_100` never touches `close_connection`. -/
theorem handleExpect100Close (rv pv : List Char) (st : HState) :
    (handleExpect100 rv pv st).2.close = st.close := by
  unfold handleExpect100 endHeaders flushHeaders sendResponseOnly
  split_ifs <;> rfl

/-! ### C5 -/

/-- C5, counterexample: a `GET / HTTP/1.1` request (negotiated version
(1,1)) with `Connection: keep-alive`, on a server whose configured
protocol is HTTP/1.0, parses successfully but leaves
`close_connection = True`.  The claim requires the keep-alive header to
force it to `False` whenever the negotiated version is ≥ 1.1; the code
instead keys the override on the *configured* `protocol_version`
(http_server.py:170-171). -/
theorem c5_keep_alive_counterexample :
    ((parseRequest "GET / HTTP/1.1\r\n".toList
        ["Connection: keep-alive\r\n".toList, "\r\n".toList]
        "HTTP/1.0".toList initState).1).isSome = true
    ∧ (parseRequest "GET / HTTP/1.1\r\n".toList
        ["Connection: keep-alive\r\n".toList, "\r\n".toList]
        "HTTP/1.0".toList initState).2.1.close = true := by
  exact ⟨by decide, by decide⟩

set_option maxHeartbeats 1600000 in
/-- C5, amended: after a successful `parse_request` the final
`close_connection` is decided as follows: a `Connection: close` header
forces `True`; otherwise `Connection: keep-alive` forces `False` when the
server's *configured* `protocol_version` is at least `"HTTP/1.1"` (the
code at http_server.py:170-172 tests `self.protocol_version`, not the
negotiated request version as the spec says); otherwise the default
stands: `False` exactly when the negotiated numeric version is at least
`(1,1)` and the configured protocol is at least `HTTP/1.1`, and `True`
for a two-token (HTTP/0.9 style) request line. -/
theorem c5_close_decision (raw : List Char) (stream : List (List Char))
    (pv : List Char) (st0 : HState) (req : PReq) (st' : HState)
    (rest : List (List Char))
    (h : parseRequest raw stream pv st0 = (some req, st', rest)) :
    st'.close =
      (if lowerS (msgGet req.headers "Connection".toList []) == "close".toList
       then true
       else if lowerS (msgGet req.headers "Connection".toList [])
             == "keep-alive".toList && strGe pv "HTTP/1.1".toList then false
       else match req.vnum with
         | some vn => !(tupGe vn (1, 1) && strGe pv "HTTP/1.1".toList)
         | none => true) := by
  unfold parseRequest at h
  dsimp only at h
  set ws := splitWs (rstripCrlf raw) with hws
  clear_value ws
  split at h
  · simp at h
  · split at h
    · simp at h
    · rename_i st1 version vn heq
      split at heq
      · -- three or more tokens
        rename_i h3len
        split at heq
        · simp at heq
        · rename_i vn0 hpv
          split at heq
          · simp at heq
          · rename_i hge2
            simp only [Except.ok.injEq, Prod.mk.injEq] at heq
            obtain ⟨hst1, hver, hvn⟩ := heq
            subst hver hvn
            have hclose1 : st1.close
                = !(tupGe vn0 (1, 1) && strGe pv "HTTP/1.1".toList) := by
              rw [← hst1]
              cases hb : (tupGe vn0 (1, 1) && strGe pv "HTTP/1.1".toList) <;>
                simp [hb]
            split at h
            · simp at h
            · rename_i hor
              simp only [Bool.or_eq_true, decide_eq_true_eq, not_or] at hor
              have hlen2 : ¬ ws.length = 2 := by omega
              simp only [if_neg hlen2] at h
              split at h
              · simp at h
              · split at h
                · simp at h
                · rename_i hdrs rest0 hph
                  split at h
                  · -- Expect: 100-continue branch
                    simp only [handleExpect100Fst, eq_self_iff_true,
                      if_true] at h
                    simp only [Prod.mk.injEq, Option.some.injEq] at h
                    obtain ⟨hreq, hst, hrest⟩ := h
                    subst hreq hst
                    rw [handleExpect100Close]
                    dsimp only
                    split_ifs with hco hka
                    · rfl
                    · rfl
                    · exact hclose1
                  · simp only [Prod.mk.injEq, Option.some.injEq] at h
                    obtain ⟨hreq, hst, hrest⟩ := h
                    subst hreq hst
                    dsimp only
                    split_ifs with hco hka
                    · rfl
                    · rfl
                    · exact hclose1
      · -- two tokens: HTTP/0.9 path
        simp only [Except.ok.injEq, Prod.mk.injEq] at heq
        obtain ⟨hst1, hver, hvn⟩ := heq
        subst hver hvn
        rename_i h3len
        have hclose1 : st1.close = true := by rw [← hst1]
        split at h
        · simp at h
        · rename_i hor
          simp only [Bool.or_eq_true, decide_eq_true_eq, not_or] at hor
          have hlen2 : ws.length = 2 := by omega
          simp only [if_pos hlen2] at h
          split at h
          · simp at h
          · split at h
            · simp at h
            · rename_i hdrs rest0 hph
              split at h
              · simp only [handleExpect100Fst, eq_self_iff_true,
                  if_true] at h
                simp only [Prod.mk.injEq, Option.some.injEq] at h
                obtain ⟨hreq, hst, hrest⟩ := h
                subst hreq hst
                rw [handleExpect100Close]
                dsimp only
                split_ifs with hco hka
                · rfl
                · rfl
                · rfl
              · simp only [Prod.mk.injEq, Option.some.injEq] at h
                obtain ⟨hreq, hst, hrest⟩ := h
                subst hreq hst
                dsimp only
                split_ifs with hco hka
                · rfl
                · rfl
                · rfl

/-- Witness for C5's amended theorem: `GET / HTTP/1.1` with no headers
against configured protocol HTTP/1.1 parses successfully with
`close_connection = False`, matching the close-decision formula. -/
theorem c5_witness :
    parseRequest "GET / HTTP/1.1\r\n".toList ["\r\n".toList] "HTTP/1.1".toList
        initState
      = (some ⟨"GET".toList, "/".toList, "HTTP/1.1".toList, some (1, 1), []⟩,
         { close := false, wire := [], buffer := [], log := [] }, [])
    ∧ ({ close := false, wire := [], buffer := [], log := [] } : HState).close
      = (if lowerS (msgGet (⟨"GET".toList, "/".toList, "HTTP/1.1".toList,
              some (1, 1), []⟩ : PReq).headers "Connection".toList [])
            == "close".toList then true
         else if lowerS (msgGet (⟨"GET".toList, "/".toList, "HTTP/1.1".toList,
              some (1, 1), []⟩ : PReq).headers "Connection".toList [])
              == "keep-alive".toList
              && strGe "HTTP/1.1".toList "HTTP/1.1".toList then false
         else match (⟨"GET".toList, "/".toList, "HTTP/1.1".toList,
              some (1, 1), []⟩ : PReq).vnum with
           | some vn => !(tupGe vn (1, 1)
               && strGe "HTTP/1.1".toList "HTTP/1.1".toList)
           | none => true) := by
  have hpr : parseRequest "GET / HTTP/1.1\r\n".toList ["\r\n".toList]
      "HTTP/1.1".toList initState
      = (some ⟨"GET".toList, "/".toList, "HTTP/1.1".toList, some (1, 1), []⟩,
         { close := false, wire := [], buffer := [], log := [] }, []) := by
    decide
  exact ⟨hpr, c5_close_decision _ _ _ _ _ _ _ hpr⟩

/-! ### C7 -/

/-- C7, counterexample: in the `run_wsgi` closure, after a first
`start_response` call that set the status and an *empty* header list,
a second call without `exc_info` does not raise — `elif headers_set:`
tests the truthiness of the list, and `[]` is falsy — contradicting
the claim that a second call without `exc_info` after status and
headers were set raises a programming error. -/
theorem c7_second_call_counterexample :
    startResponseClosure "200 OK".toList [] none
        ⟨none, none, none, none⟩
      = .ok ⟨some "200 OK".toList, some [], none, none⟩
    ∧ startResponseClosure "500 Oops".toList [("X".toList, "y".toList)] none
        ⟨some "200 OK".toList, some [], none, none⟩
      = .ok ⟨some "500 Oops".toList, some [("X".toList, "y".toList)],
          none, none⟩ := by
  exact ⟨rfl, rfl⟩

/-- C7 as amended: in the `run_wsgi` closure a second `start_response`
without `exc_info` raises the programming error whenever the first
call's header list was nonempty (the closure tests list truthiness, so
an empty list escapes), and with `exc_info` the original exception is
re-raised whenever the physically-sent header list is nonempty; the
`BaseHandler` method raises in all such cases — it compares `headers`
against `None` and keeps `headers_sent` as a boolean flag. -/
theorem c7_start_response_reentry :
    (∀ (status : List Char) (headers : List (List Char × List Char))
        (cs : ClosState) (l : List (List Char × List Char)),
       cs.headersSet = some l → l ≠ [] →
       startResponseClosure status headers none cs = .error .assertionError)
    ∧ (∀ (status : List Char) (headers : List (List Char × List Char))
        (cs : ClosState) (l : List (List Char × List Char)) (e : PyExc),
       cs.headersSent = some l → l ≠ [] →
       startResponseClosure status headers (some e) cs = .error e)
    ∧ (∀ (status : List Char) (headers h : List (List Char × List Char))
        (bs : BHState),
       bs.headers = some h →
       baseStartResponse status headers none bs = .error .assertionError)
    ∧ (∀ (status : List Char) (headers : List (List Char × List Char))
        (bs : BHState) (e : PyExc),
       bs.headersSent = true →
       baseStartResponse status headers (some e) bs = .error e) := by
  refine ⟨?_, ?_, ?_, ?_⟩
  · intro status headers cs l hset hne
    obtain ⟨a, t, rfl⟩ := List.exists_cons_of_ne_nil hne
    simp [startResponseClosure, optListTruthy, hset]
  · intro status headers cs l e hsent hne
    obtain ⟨a, t, rfl⟩ := List.exists_cons_of_ne_nil hne
    simp [startResponseClosure, optListTruthy, hsent]
  · intro status headers h bs hset
    simp [baseStartResponse, hset]
  · intro status headers bs e hsent
    simp [baseStartResponse, hsent]

/-- Witness for C7's amended theorem at concrete states. -/
theorem c7_witness :
    startResponseClosure "500 Oops".toList [] none
        ⟨some "200 OK".toList, some [("A".toList, "b".toList)], none, none⟩
      = .error .assertionError
    ∧ startResponseClosure "500 Oops".toList [] (some (.appError 7))
        ⟨some "200 OK".toList, some [("A".toList, "b".toList)],
          some "200 OK".toList, some [("A".toList, "b".toList)]⟩
      = .error (.appError 7)
    ∧ baseStartResponse "500 Oops".toList [] none
        ⟨some "200 OK".toList, some [], false⟩
      = .error .assertionError
    ∧ baseStartResponse "500 Oops".toList [] (some (.appError 7))
        ⟨some "200 OK".toList, some [], true⟩
      = .error (.appError 7) :=
  ⟨c7_start_response_reentry.1 _ _ _ _ rfl (by decide),
   c7_start_response_reentry.2.1 _ _ _ _ _ rfl (by decide),
   c7_start_response_reentry.2.2.1 _ _ _ _ rfl,
   c7_start_response_reentry.2.2.2 _ _ _ _ rfl⟩

/-! ### C9 -/

lemma sendHeaderConnClose (rv : List Char) (st : HState)
    (h : (rv == "HTTP/0.9".toList) = false) :
    sendHeader rv "Connection".toList "close".toList st
      = { st with
          buffer := st.buffer ++ ["Connection: close\r\n".toList],
          close := true } := by
  unfold sendHeader
  split_ifs <;>
    first
      | rfl
      | (exact absurd ‹(rv == "HTTP/0.9".toList) = true›
          (by intro hx; rw [hx] at h; cases h))
      | (exact absurd ‹(lowerS "close".toList == "keep-alive".toList) = true›
          (by decide))
      | (exact absurd
          (show (lowerS "close".toList == "close".toList) = true by decide) ‹_›)

lemma sendHeaderConnClose09 (rv : List Char) (st : HState)
    (h : (rv == "HTTP/0.9".toList) = true) :
    sendHeader rv "Connection".toList "close".toList st
      = { st with close := true } := by
  unfold sendHeader
  split_ifs <;>
    first
      | rfl
      | (exact absurd h ‹¬ (rv == "HTTP/0.9".toList) = true›)
      | (exact absurd ‹(lowerS "close".toList == "keep-alive".toList) = true›
          (by decide))
      | (exact absurd
          (show (lowerS "close".toList == "close".toList) = true by decide) ‹_›)

lemma wireOfFlushConn (R : HState) (b : Bool) :
    ∃ pre post,
      (flushHeaders
        { R with
          buffer := (R.buffer ++ ["Connection: close\r\n".toList])
            ++ [['\r', '\n']],
          close := b }).wire
      = pre ++ ("Connection: close\r\n".toList ++ post) := by
  refine ⟨R.wire ++ R.buffer.flatten, ['\r', '\n'], ?_⟩
  simp [flushHeaders, List.flatten_append, List.append_assoc]

lemma handleLoopCloseStops (app : AppSpec) (pv : List Char) (cfg : SrvCfg) :
    ∀ (fuel : Nat) (stream : List (List Char)) (st : HState),
    closeStops (handleLoop app pv cfg fuel stream st) := by
  intro fuel
  induction fuel with
  | zero => intro _ _; trivial
  | succ n ih =>
    intro stream st
    simp only [handleLoop]
    split
    · trivial
    · split
      · trivial
      · rename_i hkind hclose
      -- the loop continued, so this cycle left `close` false
        cases hrec : handleLoop app pv cfg n
            (handleOneRequest app pv cfg stream st).2
            (handleOneRequest app pv cfg stream st).1.st with
        | nil => trivial
        | cons d ds =>
          refine ⟨by simpa using hclose, ?_⟩
          rw [← hrec]
          exact ih _ _

/-- C9: whenever the bridge finishes emitting a response header block
(the emission phase of `run_wsgi.write` completes without an
exception), (i) the handler's `close_connection` flag is true when it
returns — `send_header('Connection', 'close')` runs last before
`end_headers` — and (ii) for a non-HTTP/0.9 request the flushed bytes
contain the `Connection: close` header line; moreover (iii) the
`handle` loop never runs another cycle after one that left
`close_connection` true, so no further request is read on that
connection. -/
theorem c9_connection_close :
    (∀ (app : AppSpec) (command rv pv : List Char) (cfg : SrvCfg)
        (st : HState) (out : HState × Bool × Option PyExc),
       wsgiEmitHeaders app command rv pv cfg st = out →
       out.2.2 = none →
       out.1.close = true
       ∧ ((rv == "HTTP/0.9".toList) = false →
           ∃ pre post,
             out.1.wire = pre ++ ("Connection: close\r\n".toList ++ post)))
    ∧ (∀ (app : AppSpec) (pv : List Char) (cfg : SrvCfg) (fuel : Nat)
        (stream : List (List Char)) (st : HState),
       closeStops (handleLoop app pv cfg fuel stream st)) := by
  constructor
  · intro app command rv pv cfg st out h hnone
    unfold wsgiEmitHeaders at h
    cases hpy : pyInt (splitStatus app.status).1 with
    | none =>
      rw [hpy] at h
      subst h
      simp at hnone
    | some code =>
      rw [hpy] at h
      simp only at h
      split at h
      · subst h; simp at hnone
      · subst h
        constructor
        · -- close flag
          cases hrv : (rv == "HTTP/0.9".toList) with
          | true =>
            rw [sendHeaderConnClose09 rv _ hrv]
            simp only [endHeaders]
            split <;> rfl
          | false =>
            rw [sendHeaderConnClose rv _ hrv]
            simp only [endHeaders]
            split <;> rfl
        · intro hrv
          rw [sendHeaderConnClose rv _ hrv]
          simp only [endHeaders]
          split
          · rename_i hx
            exact absurd hx (by simpa using hrv)
          · exact wireOfFlushConn _ true
  · intro app pv cfg fuel stream st
    exact handleLoopCloseStops app pv cfg fuel stream st

/-! ### C4 -/

lemma parseHeaderLinesOfPairs (ps : List (List Char × List Char))
    (h : ∀ p ∈ ps, pairWf p) :
    parseHeaderLines (ps.map lineOf ++ [['\r', '\n']]) = ps := by
  induction ps with
  | nil => decide
  | cons p t ih =>
    have hf := pairLineFacts p (h p (by simp))
    simp only [List.map_cons, List.cons_append, parseHeaderLines,
      hf.2.2.1, if_true, hf.2.2.2.1, hf.2.2.2.2, List.append_eq]
    rw [ih (fun q hq => h q (by simp [hq]))]

/-- C4: header blocks of at most 100 lines (terminator included) whose
lines stay within 65536 bytes parse into the full ordered pair list —
insertion order and duplicate names preserved verbatim; an over-long
line fails with `LineTooLong`, a 101st accumulated line fails with the
too-many-headers `HTTPException`, and the failures carry no header
collection at all (`Except.error` has no payload). -/
theorem c4_header_block_limits :
    (∀ (ps : List (List Char × List Char)) (rest : List (List Char)),
       (∀ p ∈ ps, pairWf p) → ps.length ≤ 99 →
       parseHeaders (ps.map lineOf ++ ['\r', '\n'] :: rest)
         = (.ok ps, rest))
    ∧ (∀ (pre : List (List Char)) (l : List Char) (post : List (List Char)),
       (∀ x ∈ pre, x.length ≤ maxLine ∧ isTerm x = false) →
       pre.length ≤ 100 → maxLine < l.length →
       (parseHeaders (pre ++ l :: post)).1 = .error .lineTooLong)
    ∧ (∀ (pre : List (List Char)) (lst : List Char) (post : List (List Char)),
       (∀ x ∈ pre, x.length ≤ maxLine ∧ isTerm x = false) →
       pre.length = 100 → lst.length ≤ maxLine →
       (parseHeaders (pre ++ lst :: post)).1 = .error .tooManyHeaders) := by
  refine ⟨?_, ?_, ?_⟩
  · intro ps rest hwf hlen
    have hlines : ∀ x ∈ ps.map lineOf, x.length ≤ maxLine ∧ isTerm x = false := by
      intro x hx
      rw [List.mem_map] at hx
      obtain ⟨p, hp, rfl⟩ := hx
      have hf := pairLineFacts p (hwf p hp)
      exact ⟨hf.1, hf.2.1⟩
    have hro := readHeadersGoOk (ps.map lineOf) [] rest hlines
      (by simpa using hlen)
    simp only [parseHeaders, hro, List.nil_append]
    rw [parseHeaderLinesOfPairs ps hwf]
  · intro pre l post hwf hlen hlong
    have := readHeadersGoLong pre [] l post hwf (by simpa using hlen) hlong
    simp only [parseHeaders]
    cases hr : readHeadersGo [] (pre ++ l :: post) with
    | mk res rest2 =>
      rw [hr] at this
      cases res with
      | ok v => simp at this
      | error e => simp at this; simp [this]
  · intro pre lst post hwf hlen hsmall
    have := readHeadersGoMany pre [] lst post hwf (by simpa using hlen) hsmall
    simp only [parseHeaders]
    cases hr : readHeadersGo [] (pre ++ lst :: post) with
    | mk res rest2 =>
      rw [hr] at this
      cases res with
      | ok v => simp at this
      | error e => simp at this; simp [this]

/-- Witness for C4: a three-pair block (with a duplicate name) parses
to exactly those pairs in order; a 70000-byte line yields
`LineTooLong`; one hundred header lines followed by another line yield
the too-many-headers failure. -/
theorem c4_witness :
    parseHeaders
        ([("Host".toList, "x".toList), ("X-A".toList, "1".toList),
          ("X-A".toList, "2".toList)].map lineOf
          ++ ['\r', '\n'] :: [])
      = (.ok [("Host".toList, "x".toList), ("X-A".toList, "1".toList),
          ("X-A".toList, "2".toList)], [])
    ∧ (parseHeaders ([] ++ List.replicate 70000 'a' :: [])).1
      = .error .lineTooLong
    ∧ (parseHeaders
        (List.replicate 100 "A: b\r\n".toList ++ "X: y\r\n".toList :: [])).1
      = .error .tooManyHeaders :=
  ⟨c4_header_block_limits.1 _ _ (by decide) (by decide),
   c4_header_block_limits.2.1 [] _ [] (by simp) (by simp)
     (by rw [List.length_replicate]; norm_num [maxLine]),
   c4_header_block_limits.2.2 _ _ []
     (by
       intro x hx
       rw [List.mem_replicate] at hx
       rw [hx.2]
       exact ⟨by decide, by decide⟩)
     (by simp) (by decide)⟩

/-- Witness for C9 at a concrete emission (response with a
`Content-Length` header, so the emission completes). -/
theorem c9_witness :
    (wsgiEmitHeaders
        ⟨"200 OK".toList, [("Content-Length".toList, "13".toList)], []⟩
        "GET".toList "HTTP/1.1".toList "HTTP/1.1".toList
        ⟨"Srv".toList, "Date".toList⟩ initState).1.close = true
    ∧ (∃ pre post,
        (wsgiEmitHeaders
          ⟨"200 OK".toList, [("Content-Length".toList, "13".toList)], []⟩
          "GET".toList "HTTP/1.1".toList "HTTP/1.1".toList
          ⟨"Srv".toList, "Date".toList⟩ initState).1.wire
        = pre ++ ("Connection: close\r\n".toList ++ post))
    ∧ closeStops (handleLoop ⟨"200 OK".toList, [], []⟩ "HTTP/1.1".toList
        ⟨[], []⟩ 1 [] initState) :=
  ⟨(c9_connection_close.1 _ _ _ _ _ _ _ rfl (by decide)).1,
   (c9_connection_close.1 _ _ _ _ _ _ _ rfl (by decide)).2 (by decide),
   c9_connection_close.2 _ _ _ 1 [] initState⟩

end WebFrame
